import Mathlib

/-!
Verification of the YouTube Watch Tracker core against its source.

The repository is a packaging script whose embedded JavaScript holds the
program: `src/background/serviceWorker.js` (the aggregation store over
IndexedDB, driven by a message handler) and `src/content/contentScript.js`
(the watch detector running on the page).  This file gives a shallow
embedding of both components and proves the specified properties.

Modelling conventions:
- IndexedDB's `videos` object store (keyed by `videoId`) is a list of
  records; `put` replaces the record with the same key or appends.
- Timestamps (`new Date().toISOString()`) are naturals supplied by the
  caller as a clock parameter; wall-clock monotonicity is a hypothesis.
- JavaScript truthiness on optional strings (`a || b`): `undefined` and
  the empty string are falsy.
- Storage-layer failures (request `onerror`, rejected `put`) are modelled
  by boolean error flags in the context `DbCtx`, reproducing exactly the
  handlers in the source (`r.onerror = () => res(null)`,
  `cursor.onerror = () => res([])`, rejected put means no response).
- `JSON.stringify`/`JSON.parse` are modelled at the level of a JSON value
  tree: `recordToJson` builds the tree `JSON.stringify` would serialize
  (dropping `undefined` fields, as stringify does), and parsing is
  extraction from that tree.
-/

namespace WatchTracker

/-- A stored record, mirroring the object kept in the `videos` store:
`{videoId, watchCount, events, title?, lastSeenAt?}`.  A freshly created
default (`{videoId, watchCount: 0, events: []}`) has no `title` and no
`lastSeenAt`, hence the `Option` fields. -/
structure WatchRecord where
  videoId : String
  watchCount : Nat
  events : List Nat
  title : Option String
  lastSeenAt : Option Nat
deriving DecidableEq

/-- The `videos` object store: a list of records keyed by `videoId`. -/
abbrev Store := List WatchRecord

/-- `getVideo`: `store.get(videoId)`, returning the stored record or
`null` (the source resolves `r.result || null`). -/
def getVideo (st : Store) (vid : String) : Option WatchRecord :=
  st.find? (fun r => r.videoId == vid)

/-- `putVideo`: IndexedDB `store.put(obj)` with `keyPath: videoId` —
replaces the record with the same key, or adds the object. -/
def putVideo : Store → WatchRecord → Store
  | [], r => [r]
  | x :: xs, r => if x.videoId = r.videoId then r :: xs else x :: putVideo xs r

/-- JavaScript `a || b` on an optional string `a` and string `b`:
`undefined` and `""` are falsy. -/
def jsOrS : Option String → String → String
  | some s, b => if s = "" then b else s
  | none, b => b

/-- The default record created by `record_watch` when `getVideo` finds
nothing: `{ videoId: msg.videoId, watchCount: 0, events: [] }`. -/
def freshRecord (vid : String) : WatchRecord :=
  { videoId := vid, watchCount := 0, events := [], title := none, lastSeenAt := none }

/-- The mutation performed by the `record_watch` handler on the loaded (or
default) record:
`existing.watchCount = (existing.watchCount || 0) + 1`,
`existing.events.push(now)`,
`existing.title = msg.meta && msg.meta.title || existing.title || document.title`,
`existing.lastSeenAt = existing.events[existing.events.length - 1]`. -/
def mkUpdated (existing : WatchRecord) (metaTitle : Option String)
    (docTitle : String) (now : Nat) : WatchRecord :=
  { existing with
    watchCount := existing.watchCount + 1
    events := existing.events ++ [now]
    title := some (jsOrS metaTitle (jsOrS existing.title docTitle))
    lastSeenAt := (existing.events ++ [now]).getLast? }

/-- The error-free `record_watch` operation: load existing or default,
apply the mutation, persist, and return the new `watchCount` (the value
sent back in `{success: true, watchCount}`). -/
def recordWatch (st : Store) (vid : String) (metaTitle : Option String)
    (docTitle : String) (now : Nat) : Nat × Store :=
  let existing := (getVideo st vid).getD (freshRecord vid)
  let r := mkUpdated existing metaTitle docTitle now
  (r.watchCount, putVideo st r)

section StoreLemmas

theorem getVideo_nil (vid : String) : getVideo [] vid = none := rfl

theorem getVideo_eq_some_videoId {st : Store} {vid : String} {r : WatchRecord}
    (h : getVideo st vid = some r) : r.videoId = vid := by
  have hp := List.find?_some h
  simpa using hp

theorem getVideo_mem {st : Store} {vid : String} {r : WatchRecord}
    (h : getVideo st vid = some r) : r ∈ st :=
  List.mem_of_find?_eq_some h

theorem getVideo_putVideo_self (st : Store) (r : WatchRecord) :
    getVideo (putVideo st r) r.videoId = some r := by
  induction st with
  | nil => simp [getVideo, putVideo]
  | cons x xs ih =>
    by_cases h : x.videoId = r.videoId
    · simp [putVideo, h, getVideo]
    · simp only [putVideo, if_neg h]
      simp only [getVideo, List.find?] at ih ⊢
      have hx : (x.videoId == r.videoId) = false := by
        simp [h]
      rw [hx]
      exact ih

theorem getVideo_putVideo_ne (st : Store) (r : WatchRecord) (v : String)
    (h : r.videoId ≠ v) : getVideo (putVideo st r) v = getVideo st v := by
  induction st with
  | nil =>
    simp only [getVideo, putVideo, List.find?]
    have hr : (r.videoId == v) = false := by simp [h]
    rw [hr]
  | cons x xs ih =>
    by_cases hx : x.videoId = r.videoId
    · simp only [putVideo, if_pos hx]
      simp only [getVideo, List.find?]
      have hr : (r.videoId == v) = false := by simp [h]
      have hxv : (x.videoId == v) = false := by rw [hx]; simp [h]
      rw [hr, hxv]
    · simp only [putVideo, if_neg hx]
      simp only [getVideo, List.find?] at ih ⊢
      cases hxe : (x.videoId == v) with
      | true => rfl
      | false => exact ih

theorem mem_putVideo {st : Store} {r a : WatchRecord}
    (h : a ∈ putVideo st r) : a = r ∨ a ∈ st := by
  induction st with
  | nil => simpa [putVideo] using h
  | cons x xs ih =>
    by_cases hx : x.videoId = r.videoId
    · simp only [putVideo, if_pos hx, List.mem_cons] at h
      rcases h with h | h
      · exact Or.inl h
      · exact Or.inr (List.mem_cons_of_mem x h)
    · simp only [putVideo, if_neg hx, List.mem_cons] at h
      rcases h with h | h
      · exact Or.inr (h ▸ List.mem_cons_self x xs)
      · rcases ih h with h2 | h2
        · exact Or.inl h2
        · exact Or.inr (List.mem_cons_of_mem x h2)

theorem mkUpdated_videoId (e : WatchRecord) (mt : Option String) (dt : String)
    (t : Nat) : (mkUpdated e mt dt t).videoId = e.videoId := rfl

end StoreLemmas

/-- A JSON value, the tree that `JSON.stringify` serializes and
`JSON.parse` recovers.  Object fields are kept in insertion order, and
`undefined` fields are omitted, as `JSON.stringify` does. -/
inductive Json where
  | str (s : String)
  | num (n : Nat)
  | arr (xs : List Json)
  | obj (fields : List (String × Json))

/-- The JSON tree `JSON.stringify` produces for a stored record.  Field
order follows JavaScript property creation order in the source
(`videoId`, `watchCount`, `events`, then `title` and `lastSeenAt`); the
optional fields are omitted when absent (`undefined`). -/
def recordToJson (r : WatchRecord) : Json :=
  Json.obj
    ([("videoId", Json.str r.videoId),
      ("watchCount", Json.num r.watchCount),
      ("events", Json.arr (r.events.map Json.num))]
     ++ (match r.title with
         | some t => [("title", Json.str t)]
         | none => [])
     ++ (match r.lastSeenAt with
         | some t => [("lastSeenAt", Json.num t)]
         | none => []))

/-- Failure behaviour of the IndexedDB layer for one request, driving the
`onerror` paths of the source verbatim. -/
structure DbCtx where
  docTitle : String
  now : Nat
  getErr : Bool
  putErr : Bool
  cursorErr : Bool
deriving DecidableEq

/-- An error-free context: every IndexedDB request succeeds. -/
def okCtx (docTitle : String) (now : Nat) : DbCtx :=
  { docTitle := docTitle, now := now, getErr := false, putErr := false, cursorErr := false }

/-- `getVideo` including its error path: `r.onerror = () => res(null)`. -/
def getVideoOp (st : Store) (vid : String) (err : Bool) : Option WatchRecord :=
  if err then none else getVideo st vid

/-- `getAllVideos` including its error path:
`cursor.onerror = () => res([])`. -/
def getAllOp (st : Store) (err : Bool) : List WatchRecord :=
  if err then [] else st

/-- The JSON value serialized by the `export_json` handler:
`JSON.stringify(await getAllVideos())`. -/
def exportJsonValue (st : Store) (cursorErr : Bool) : Json :=
  Json.arr ((getAllOp st cursorErr).map recordToJson)

/-- An incoming runtime message.  `nullMsg` is a null/undefined message;
`obj ty vid mt` is an object whose `type` field is `ty` (`none` when the
field is missing), with `videoId` and `meta.title` as sent by the content
script (`mt = none` also covers a missing `meta`). -/
inductive JsMsg where
  | nullMsg
  | obj (ty : Option String) (videoId : String) (metaTitle : Option String)
deriving DecidableEq

/-- The value passed to `sendResponse` by the service worker listener. -/
inductive Response where
  | nullR
  | record (r : WatchRecord)
  | recorded (watchCount : Nat)
  | list (rs : List WatchRecord)
  | json (j : Json)

/-- The `chrome.runtime.onMessage` listener of the service worker: the
response sent and the resulting store.  `!msg || !msg.type` answers null;
the four known types dispatch as in the source; anything else answers
null.  A failing `put` rejects, so no response is sent and the aborted
transaction leaves the store unchanged — the caller's callback then sees
an absent (null) response. -/
def handle (st : Store) (m : JsMsg) (c : DbCtx) : Response × Store :=
  match m with
  | .nullMsg => (.nullR, st)
  | .obj none _ _ => (.nullR, st)
  | .obj (some ty) vid mt =>
    if ty = "" then (.nullR, st)
    else if ty = "get_video" then
      (match getVideoOp st vid c.getErr with
       | some r => .record r
       | none => .nullR, st)
    else if ty = "record_watch" then
      let existing := (getVideoOp st vid c.getErr).getD (freshRecord vid)
      let r := mkUpdated existing mt c.docTitle c.now
      if c.putErr then (.nullR, st) else (.recorded r.watchCount, putVideo st r)
    else if ty = "get_all_videos" then (.list (getAllOp st c.cursorErr), st)
    else if ty = "export_json" then (.json (exportJsonValue st c.cursorErr), st)
    else (.nullR, st)

/-- One message delivery together with the ambient document title and the
wall-clock instant at which it is handled. -/
structure MsgCall where
  msg : JsMsg
  docTitle : String
  now : Nat
deriving DecidableEq

/-- Deliver a sequence of messages to the service worker, every IndexedDB
request succeeding, and return the final store. -/
def runMsgs : Store → List MsgCall → Store
  | st, [] => st
  | st, c :: rest => runMsgs (handle st c.msg (okCtx c.docTitle c.now)).2 rest

/-- Whether a message is a `record_watch` request for the given id. -/
def isRecordWatchFor (vid : String) : JsMsg → Bool
  | .obj (some t) v _ => t = "record_watch" && v = vid
  | _ => false

/-- The message types the listener dispatches on. -/
def knownType (t : String) : Bool :=
  t = "get_video" || t = "record_watch" || t = "get_all_videos" || t = "export_json"

/-- A message the listener answers with null without touching the store:
null/undefined, missing or empty `type`, or an unrecognized `type`. -/
def badMsg : JsMsg → Bool
  | .nullMsg => true
  | .obj none _ _ => true
  | .obj (some t) _ _ => !(knownType t)

/-- One call in a sequence of `record_watch` requests: the `meta.title`
sent, the ambient `document.title`, and the wall-clock instant. -/
structure RWCall where
  metaTitle : Option String
  docTitle : String
  time : Nat
deriving DecidableEq

/-- Perform a sequence of error-free `record_watch` calls for one id,
collecting the returned `watchCount` of each call. -/
def runRecordWatches (st : Store) (vid : String) : List RWCall → List Nat × Store
  | [] => ([], st)
  | c :: rest =>
    let p := recordWatch st vid c.metaTitle c.docTitle c.time
    let q := runRecordWatches p.2 vid rest
    (p.1 :: q.1, q.2)

/-- The list `[a, a+1, ..., a+n-1]`. -/
def countUpFrom : Nat → Nat → List Nat
  | _, 0 => []
  | a, n + 1 => a :: countUpFrom (a + 1) n

/-- The record invariant of the data model: `watchCount` equals the
length of `events`, and `lastSeenAt` is the last event whenever `events`
is non-empty. -/
abbrev WfRecord (r : WatchRecord) : Prop :=
  r.watchCount = r.events.length ∧ (r.events ≠ [] → r.lastSeenAt = r.events.getLast?)

/-- Every record in the store satisfies the record invariant. -/
abbrev WfStore (st : Store) : Prop := ∀ r ∈ st, WfRecord r

/-! ### JSON field extraction (the parsing side of the export contract) -/

/-- Extract a JSON string. -/
def asStr : Json → Option String
  | .str s => some s
  | _ => none

/-- Extract a JSON number. -/
def asNum : Json → Option Nat
  | .num n => some n
  | _ => none

/-- Extract a JSON array. -/
def asArr : Json → Option (List Json)
  | .arr xs => some xs
  | _ => none

/-- Look up a field of a JSON object by key. -/
def jLookup (fs : List (String × Json)) (k : String) : Option Json :=
  (fs.find? (fun p => p.1 == k)).map (fun p => p.2)

/-- Decode a list of JSON numbers. -/
def decodeNums : List Json → Option (List Nat)
  | [] => some []
  | j :: rest =>
    match asNum j, decodeNums rest with
    | some n, some ns => some (n :: ns)
    | _, _ => none

/-- Extract the `(itemId, watchCount, events)` triple of one parsed
record object. -/
def jsonTriple (j : Json) : Option (String × Nat × List Nat) :=
  match j with
  | .obj fs =>
    match (jLookup fs "videoId").bind asStr, (jLookup fs "watchCount").bind asNum,
          ((jLookup fs "events").bind asArr).bind decodeNums with
    | some v, some c, some evs => some (v, c, evs)
    | _, _, _ => none
  | _ => none

/-- Decode every element of a parsed export array into its triple. -/
def decodeTriples : List Json → Option (List (String × Nat × List Nat))
  | [] => some []
  | j :: rest =>
    match jsonTriple j, decodeTriples rest with
    | some t, some ts => some (t :: ts)
    | _, _ => none

/-- Parse the export payload: a JSON array of record objects. -/
def parseTriples : Json → Option (List (String × Nat × List Nat))
  | .arr xs => decodeTriples xs
  | _ => none

/-- The `(itemId, watchCount, events)` triple of a stored record. -/
def recordTriple (r : WatchRecord) : String × Nat × List Nat :=
  (r.videoId, r.watchCount, r.events)

/-! ### The watch detector (contentScript.js) -/

/-- The value of `video.duration`: a finite number, `NaN` (unknown), or
`Infinity` (live stream). -/
inductive JsNum where
  | num (q : ℚ)
  | nan
  | inf
deriving DecidableEq

/-- The guard of the `timeupdate` handler:
`const duration = video.duration || 0; if (!duration || duration === Infinity) return;`
followed by `percent = currentTime / duration * 100; percent >= THRESHOLD_PERCENT`
with `THRESHOLD_PERCENT = 70`.  `NaN || 0` is `0`, and `!0` is true, so a
`NaN` or zero duration never reaches the percent test. -/
def thresholdHit (ct : ℚ) : JsNum → Bool
  | .nan => false
  | .inf => false
  | .num d => if d = 0 then false else decide (70 ≤ ct / d * 100)

/-- Detector session state: the item id currently in the page URL (what
`getVideoId()` returns) and the `sessionMarked` set. -/
structure DetectorState where
  currentId : Option String
  sessionMarked : List String
deriving DecidableEq

/-- The page signals the detector consumes: continuous `timeupdate`
position updates, the discrete `ended` signal, and an observed location
change (the `hrefObserver` firing `onNavigation`, with the id resolvable
from the new URL, or `none`). -/
inductive PageEvent where
  | timeupdate (currentTime : ℚ) (duration : JsNum)
  | ended
  | navigate (newId : Option String)
deriving DecidableEq

/-- Whether a page event is a navigation. -/
def isNavigate : PageEvent → Bool
  | .navigate _ => true
  | _ => false

/-- One detector step: the next session state, and the id sent in a
`record_watch` message when one is emitted.
- `onNavigation` replaces `sessionMarked` with a fresh empty set.
- the `ended` handler: return if no id, return if already marked, else
  mark and send.
- the `timeupdate` handler: return if no id, then the duration guard and
  percent test (`thresholdHit`), and the `!sessionMarked.has(vid)` check;
  on success mark and send. -/
def detectorStep (s : DetectorState) (e : PageEvent) : DetectorState × Option String :=
  match e with
  | .navigate newId => ({ currentId := newId, sessionMarked := [] }, none)
  | .ended =>
    match s.currentId with
    | none => (s, none)
    | some vid =>
      if vid ∈ s.sessionMarked then (s, none)
      else ({ s with sessionMarked := vid :: s.sessionMarked }, some vid)
  | .timeupdate ct dur =>
    match s.currentId with
    | none => (s, none)
    | some vid =>
      if thresholdHit ct dur ∧ vid ∉ s.sessionMarked then
        ({ s with sessionMarked := vid :: s.sessionMarked }, some vid)
      else (s, none)

/-- The emissions of one step as a list. -/
def emitList : Option String → List String
  | some v => [v]
  | none => []

/-- Run the detector over a sequence of page events, collecting the ids
of all `record_watch` messages it sends, in order. -/
def runDetector : DetectorState → List PageEvent → DetectorState × List String
  | s, [] => (s, [])
  | s, e :: rest =>
    let p := detectorStep s e
    let q := runDetector p.1 rest
    (q.1, emitList p.2 ++ q.2)

section HandlerLemmas

theorem handle_record_watch_ok (st : Store) (vid : String) (mt : Option String)
    (dt : String) (t : Nat) :
    handle st (.obj (some "record_watch") vid mt) (okCtx dt t) =
      (.recorded (recordWatch st vid mt dt t).1, (recordWatch st vid mt dt t).2) := rfl

theorem wfRecord_mkUpdated (e : WatchRecord) (mt : Option String) (dt : String)
    (t : Nat) (h : e.watchCount = e.events.length) :
    WfRecord (mkUpdated e mt dt t) := by
  refine ⟨?_, fun _ => rfl⟩
  simp [mkUpdated, h]

theorem wf_existing {st : Store} (h : WfStore st) (v : String) (ge : Bool) :
    ((getVideoOp st v ge).getD (freshRecord v)).watchCount
      = ((getVideoOp st v ge).getD (freshRecord v)).events.length := by
  cases ge with
  | true => rfl
  | false =>
    cases hv : getVideo st v with
    | none => simp [getVideoOp, hv, freshRecord]
    | some r =>
      have := (h r (getVideo_mem hv)).1
      simpa [getVideoOp, hv] using this

theorem decodeNums_map (l : List Nat) :
    decodeNums (l.map Json.num) = some l := by
  induction l with
  | nil => rfl
  | cons n rest ih => simp [List.map_cons, decodeNums, asNum, ih]

theorem jsonTriple_recordToJson (r : WatchRecord) :
    jsonTriple (recordToJson r) = some (recordTriple r) := by
  rcases r with ⟨vid, cnt, evs, ti, ls⟩
  cases ti <;> cases ls <;>
    simp [recordToJson, jsonTriple, jLookup, asStr, asNum, asArr, recordTriple,
      decodeNums_map, List.find?]

theorem decodeTriples_map (l : List WatchRecord) :
    decodeTriples (l.map recordToJson) = some (l.map recordTriple) := by
  induction l with
  | nil => rfl
  | cons r rest ih => simp [List.map_cons, decodeTriples, jsonTriple_recordToJson, ih]

end HandlerLemmas

/-- Claim C2: every store operation preserves the record invariant — for
every record that exists after the operation, `watchCount` equals the
length of `events`, and whenever `events` is non-empty, `lastSeenAt`
equals its last element.  This holds for every message and every
IndexedDB failure pattern. -/
theorem C2_store_ops_preserve_invariant (st : Store) (m : JsMsg) (c : DbCtx)
    (h : WfStore st) : WfStore (handle st m c).2 := by
  rcases m with _ | ⟨ty, v, mt⟩
  · exact h
  rcases ty with _ | t
  · exact h
  by_cases h0 : t = ""
  · simpa [handle, h0] using h
  by_cases h1 : t = "get_video"
  · simpa [handle, h0, h1] using h
  by_cases h2 : t = "record_watch"
  · by_cases hp : c.putErr
    · simpa [handle, h0, h1, h2, hp] using h
    · have hh : (handle st (.obj (some t) v mt) c).2
          = putVideo st (mkUpdated ((getVideoOp st v c.getErr).getD (freshRecord v))
              mt c.docTitle c.now) := by
        simp [handle, h0, h1, h2, hp]
      rw [hh]
      intro a ha
      rcases mem_putVideo ha with rfl | hm
      · exact wfRecord_mkUpdated _ _ _ _ (wf_existing h v c.getErr)
      · exact h a hm
  by_cases h3 : t = "get_all_videos"
  · simpa [handle, h0, h1, h2, h3] using h
  by_cases h4 : t = "export_json"
  · simpa [handle, h0, h1, h2, h3, h4] using h
  · simpa [handle, h0, h1, h2, h3, h4] using h

/-- Witness for C2 at a concrete store and a `record_watch` message. -/
theorem C2_witness :
    WfStore [⟨"a", 1, [3], some "t", some 3⟩] ∧
    WfStore (handle [⟨"a", 1, [3], some "t", some 3⟩]
      (.obj (some "record_watch") "a" (some "s")) (okCtx "d" 9)).2 :=
  ⟨by decide, C2_store_ops_preserve_invariant _ _ _ (by decide)⟩

/-- Claim C10: a null message, a message without a `type` field, and a
message whose `type` is none of `get_video`, `record_watch`,
`get_all_videos`, `export_json` are all answered with null and leave the
store unchanged. -/
theorem C10_unknown_message_null (st : Store) (m : JsMsg) (c : DbCtx)
    (h : badMsg m = true) : handle st m c = (.nullR, st) := by
  rcases m with _ | ⟨ty, v, mt⟩
  · rfl
  rcases ty with _ | t
  · rfl
  simp only [badMsg, knownType, Bool.not_eq_true', Bool.or_eq_false_iff,
    decide_eq_false_iff_not] at h
  obtain ⟨⟨⟨h1, h2⟩, h3⟩, h4⟩ := h
  by_cases h0 : t = ""
  · simp [handle, h0]
  · simp [handle, h0, h1, h2, h3, h4]

/-- Witness for C10 at a concrete unrecognized message. -/
theorem C10_witness :
    badMsg (.obj (some "clear_all") "x" none) = true ∧
    handle [⟨"a", 1, [3], some "t", some 3⟩] (.obj (some "clear_all") "x" none)
        (okCtx "d" 9)
      = (.nullR, [⟨"a", 1, [3], some "t", some 3⟩]) :=
  ⟨by decide, C10_unknown_message_null _ _ _ (by decide)⟩

/-- Claim C7 (amended): how storage-layer failures actually surface.  A
`get_video` request failure is answered with null; a `record_watch` whose
`put` fails sends no response (the caller observes null) and leaves the
store unchanged; but a `get_all_videos` cursor failure is answered with
the empty list — the same value an empty store produces — and a failing
`getVideo` inside `record_watch` is swallowed: the handler proceeds as if
no record existed and answers `{success: true, watchCount: 1}`. -/
theorem C7_failure_paths (st : Store) (vid : String) (mt : Option String)
    (dt : String) (t : Nat) (ge pe ce : Bool) :
    handle st (.obj (some "get_video") vid mt) ⟨dt, t, true, pe, ce⟩ = (.nullR, st) ∧
    handle st (.obj (some "record_watch") vid mt) ⟨dt, t, ge, true, ce⟩ = (.nullR, st) ∧
    handle st (.obj (some "get_all_videos") vid mt) ⟨dt, t, ge, pe, true⟩ = (.list [], st) ∧
    (handle st (.obj (some "record_watch") vid mt) ⟨dt, t, true, false, ce⟩).1
      = .recorded 1 :=
  ⟨rfl, rfl, rfl, rfl⟩

/-- Counterexample to claim C7 as stated: a `get_all_videos` cursor
failure over a non-empty store is answered with `[]`, the very response a
genuinely empty store produces — a confirmed-empty result, not an
absent/null one — and a `getVideo` failure inside `record_watch` is
answered with `{success: true, watchCount: 1}` rather than null. -/
theorem C7_counterexample :
    handle [⟨"a", 5, [1, 2, 3, 4, 5], some "T", some 5⟩]
        (.obj (some "get_all_videos") "a" none) ⟨"", 9, false, false, true⟩
      = (.list [], [⟨"a", 5, [1, 2, 3, 4, 5], some "T", some 5⟩]) ∧
    handle [] (.obj (some "get_all_videos") "a" none) ⟨"", 9, false, false, false⟩
      = (.list [], []) ∧
    (handle [⟨"a", 5, [1, 2, 3, 4, 5], some "T", some 5⟩]
        (.obj (some "record_watch") "a" (some "T")) ⟨"", 9, true, false, false⟩).1
      = .recorded 1 :=
  ⟨rfl, rfl, rfl⟩

/-- Claim C9: the payload serialized by `export_json` is the array of the
very records `get_all_videos` returns, so parsing it recovers exactly the
same `(itemId, watchCount, events)` triples, in the same order (hence the
same set). -/
theorem C9_export_matches_list (st : Store) (v : String) (dt : String) (t : Nat) :
    handle st (.obj (some "export_json") v none) (okCtx dt t)
        = (.json (exportJsonValue st false), st) ∧
    handle st (.obj (some "get_all_videos") v none) (okCtx dt t)
        = (.list (getAllOp st false), st) ∧
    parseTriples (exportJsonValue st false)
        = some ((getAllOp st false).map recordTriple) := by
  refine ⟨rfl, rfl, ?_⟩
  show decodeTriples (st.map recordToJson) = some (st.map recordTriple)
  exact decodeTriples_map st

section PersistenceLemmas

theorem existing_ok_videoId (st : Store) (v : String) :
    ((getVideo st v).getD (freshRecord v)).videoId = v := by
  cases hv : getVideo st v with
  | none => simp [freshRecord]
  | some r => simp [getVideo_eq_some_videoId hv]

theorem existing_op_videoId (st : Store) (v : String) (ge : Bool) :
    ((getVideoOp st v ge).getD (freshRecord v)).videoId = v := by
  cases ge with
  | true => rfl
  | false =>
    cases hv : getVideo st v with
    | none => simp [getVideoOp, hv, freshRecord]
    | some r => simp [getVideoOp, hv, getVideo_eq_some_videoId hv]

theorem handle_state (st : Store) (m : JsMsg) (c : DbCtx) :
    (handle st m c).2 = st ∨
    (∃ v mt, m = .obj (some "record_watch") v mt ∧ c.putErr = false ∧
      (handle st m c).2
        = putVideo st (mkUpdated ((getVideoOp st v c.getErr).getD (freshRecord v))
            mt c.docTitle c.now)) := by
  rcases m with _ | ⟨ty, v, mt⟩
  · exact Or.inl rfl
  rcases ty with _ | t
  · exact Or.inl rfl
  by_cases h0 : t = ""
  · exact Or.inl (by simp [handle, h0])
  by_cases h1 : t = "get_video"
  · exact Or.inl (by simp [handle, h0, h1])
  by_cases h2 : t = "record_watch"
  · by_cases hp : c.putErr
    · exact Or.inl (by simp [handle, h0, h1, h2, hp])
    · refine Or.inr ⟨v, mt, by rw [h2], by simpa using hp, ?_⟩
      simp [handle, h0, h1, h2, hp]
  by_cases h3 : t = "get_all_videos"
  · exact Or.inl (by simp [handle, h0, h1, h2, h3])
  by_cases h4 : t = "export_json"
  · exact Or.inl (by simp [handle, h0, h1, h2, h3, h4])
  · exact Or.inl (by simp [handle, h0, h1, h2, h3, h4])

theorem handle_preserves_other (st : Store) (m : JsMsg) (c : DbCtx) (vid : String)
    (h : isRecordWatchFor vid m = false) :
    getVideo (handle st m c).2 vid = getVideo st vid := by
  rcases handle_state st m c with hs | ⟨v, mt, hm, hp, hs⟩
  · rw [hs]
  · rw [hs]
    have hv : v ≠ vid := by
      rw [hm] at h
      simpa [isRecordWatchFor] using h
    apply getVideo_putVideo_ne
    rw [mkUpdated_videoId, existing_op_videoId]
    exact hv

theorem handle_keeps_some (st : Store) (m : JsMsg) (c : DbCtx) (vid : String)
    (h : getVideo st vid ≠ none) : getVideo (handle st m c).2 vid ≠ none := by
  rcases handle_state st m c with hs | ⟨v, mt, hm, hp, hs⟩
  · rw [hs]; exact h
  · rw [hs]
    by_cases hv : v = vid
    · subst hv
      have hk := getVideo_putVideo_self st
        (mkUpdated ((getVideoOp st v c.getErr).getD (freshRecord v)) mt c.docTitle c.now)
      rw [mkUpdated_videoId, existing_op_videoId] at hk
      rw [hk]
      exact Option.some_ne_none _
    · rw [getVideo_putVideo_ne]
      · exact h
      · rw [mkUpdated_videoId, existing_op_videoId]
        exact fun he => hv he

theorem runMsgs_keeps_some (cs : List MsgCall) :
    ∀ (st : Store) (vid : String), getVideo st vid ≠ none →
      getVideo (runMsgs st cs) vid ≠ none := by
  induction cs with
  | nil => intro st vid h; exact h
  | cons c rest ih =>
    intro st vid h
    exact ih _ vid (handle_keeps_some st c.msg (okCtx c.docTitle c.now) vid h)

theorem getVideo_after_recordWatch (st : Store) (vid : String) (mt : Option String)
    (dt : String) (t : Nat) :
    getVideo (recordWatch st vid mt dt t).2 vid
      = some (mkUpdated ((getVideo st vid).getD (freshRecord vid)) mt dt t) := by
  show getVideo (putVideo st (mkUpdated ((getVideo st vid).getD (freshRecord vid)) mt dt t)) vid
      = _
  have hk := getVideo_putVideo_self st
    (mkUpdated ((getVideo st vid).getD (freshRecord vid)) mt dt t)
  rwa [mkUpdated_videoId, existing_ok_videoId] at hk

theorem handle_record_creates (st : Store) (vid : String) (mt : Option String)
    (dt : String) (t : Nat) :
    getVideo (handle st (.obj (some "record_watch") vid mt) (okCtx dt t)).2 vid ≠ none := by
  rw [handle_record_watch_ok]
  simp only [getVideo_after_recordWatch]
  exact Option.some_ne_none _

theorem runMsgs_none_iff (cs : List MsgCall) :
    ∀ (st : Store) (vid : String), getVideo st vid = none →
      (getVideo (runMsgs st cs) vid = none ↔
        ∀ c ∈ cs, isRecordWatchFor vid c.msg = false) := by
  induction cs with
  | nil =>
    intro st vid h
    simpa [runMsgs] using h
  | cons c rest ih =>
    intro st vid h
    by_cases hm : isRecordWatchFor vid c.msg = true
    · obtain ⟨mt, hmsg⟩ : ∃ mt, c.msg = .obj (some "record_watch") vid mt := by
        rcases hc : c.msg with _ | ⟨ty, v, mt⟩
        · rw [hc] at hm; simp [isRecordWatchFor] at hm
        · rcases ty with _ | t
          · rw [hc] at hm; simp [isRecordWatchFor] at hm
          · rw [hc] at hm
            simp only [isRecordWatchFor, Bool.and_eq_true, decide_eq_true_eq] at hm
            exact ⟨mt, by rw [hm.1, hm.2]⟩
      have hsome : getVideo (runMsgs st (c :: rest)) vid ≠ none := by
        show getVideo (runMsgs (handle st c.msg (okCtx c.docTitle c.now)).2 rest) vid ≠ none
        apply runMsgs_keeps_some
        rw [hmsg]
        exact handle_record_creates st vid mt c.docTitle c.now
      constructor
      · intro hx; exact absurd hx hsome
      · intro hall
        exact absurd (hall c (List.mem_cons_self c rest)) (by simp [hm])
    · have hm2 : isRecordWatchFor vid c.msg = false := by simpa using hm
      have hpres := handle_preserves_other st c.msg (okCtx c.docTitle c.now) vid hm2
      have hnone : getVideo (handle st c.msg (okCtx c.docTitle c.now)).2 vid = none := by
        rw [hpres]; exact h
      have := ih (handle st c.msg (okCtx c.docTitle c.now)).2 vid hnone
      show getVideo (runMsgs (handle st c.msg (okCtx c.docTitle c.now)).2 rest) vid = none ↔ _
      rw [this]
      simp [hm2]

end PersistenceLemmas

/-- Claim C5: starting from an empty store, an identifier's record is
absent exactly when no `record_watch` for that identifier was delivered —
absent record means never watched, and `get_video` then answers null, not
a zero-valued record. -/
theorem C5_absent_iff_never_watched (cs : List MsgCall) (vid dt : String) (t : Nat) :
    (getVideo (runMsgs [] cs) vid = none ↔
      ∀ c ∈ cs, isRecordWatchFor vid c.msg = false) ∧
    ((∀ c ∈ cs, isRecordWatchFor vid c.msg = false) →
      handle (runMsgs [] cs) (.obj (some "get_video") vid none) (okCtx dt t)
        = (.nullR, runMsgs [] cs)) := by
  have hiff := runMsgs_none_iff cs [] vid rfl
  refine ⟨hiff, fun hall => ?_⟩
  have hn : getVideo (runMsgs [] cs) vid = none := hiff.mpr hall
  simp [handle, getVideoOp, hn]

/-- Witness for C5: a run that records a different id and reads this one. -/
theorem C5_witness :
    (∀ c ∈ [MsgCall.mk (.obj (some "record_watch") "b" (some "T")) "d" 1,
            MsgCall.mk (.obj (some "get_video") "a" none) "d" 2],
        isRecordWatchFor "a" c.msg = false) ∧
    handle (runMsgs [] [MsgCall.mk (.obj (some "record_watch") "b" (some "T")) "d" 1,
            MsgCall.mk (.obj (some "get_video") "a" none) "d" 2])
        (.obj (some "get_video") "a" none) (okCtx "d" 9)
      = (.nullR, runMsgs [] [MsgCall.mk (.obj (some "record_watch") "b" (some "T")) "d" 1,
            MsgCall.mk (.obj (some "get_video") "a" none) "d" 2]) :=
  ⟨by decide,
   (C5_absent_iff_never_watched _ "a" "d" 9).2 (by decide)⟩

section SequenceLemmas

theorem recordWatch_eq_of_found {st : Store} {vid : String} {r : WatchRecord}
    (h : getVideo st vid = some r) (mt : Option String) (dt : String) (t : Nat) :
    recordWatch st vid mt dt t = (r.watchCount + 1, putVideo st (mkUpdated r mt dt t)) := by
  simp [recordWatch, h, mkUpdated]

theorem recordWatch_eq_of_none {st : Store} {vid : String}
    (h : getVideo st vid = none) (mt : Option String) (dt : String) (t : Nat) :
    recordWatch st vid mt dt t
      = (1, putVideo st (mkUpdated (freshRecord vid) mt dt t)) := by
  simp [recordWatch, h, mkUpdated, freshRecord]

theorem mkUpdated_watchCount (e : WatchRecord) (mt : Option String) (dt : String)
    (t : Nat) : (mkUpdated e mt dt t).watchCount = e.watchCount + 1 := rfl

theorem mkUpdated_events (e : WatchRecord) (mt : Option String) (dt : String)
    (t : Nat) : (mkUpdated e mt dt t).events = e.events ++ [t] := rfl

theorem runRecordWatches_spec (calls : List RWCall) :
    ∀ (st : Store) (r : WatchRecord) (vid : String), getVideo st vid = some r →
    (runRecordWatches st vid calls).1 = countUpFrom (r.watchCount + 1) calls.length ∧
    ∃ s, getVideo (runRecordWatches st vid calls).2 vid = some s ∧
      s.watchCount = r.watchCount + calls.length ∧
      s.events = r.events ++ calls.map RWCall.time := by
  induction calls with
  | nil =>
    intro st r vid h
    exact ⟨rfl, r, h, by simp, by simp⟩
  | cons c rest ih =>
    intro st r vid h
    have hget := getVideo_after_recordWatch st vid c.metaTitle c.docTitle c.time
    rw [h, Option.getD_some] at hget
    obtain ⟨h1, s, h2, h3, h4⟩ :=
      ih (recordWatch st vid c.metaTitle c.docTitle c.time).2
        (mkUpdated r c.metaTitle c.docTitle c.time) vid hget
    refine ⟨?_, s, h2, ?_, ?_⟩
    · show (recordWatch st vid c.metaTitle c.docTitle c.time).1
          :: (runRecordWatches (recordWatch st vid c.metaTitle c.docTitle c.time).2
              vid rest).1 = _
      have hfst : (recordWatch st vid c.metaTitle c.docTitle c.time).1
          = r.watchCount + 1 := by rw [recordWatch_eq_of_found h]
      rw [h1, mkUpdated_watchCount, hfst]
      rfl
    · rw [h3, mkUpdated_watchCount, List.length_cons]
      omega
    · rw [h4, mkUpdated_events, List.map_cons, List.append_assoc, List.singleton_append]

end SequenceLemmas

/-- Claim C1: N successful sequential `record_watch` calls for one id,
the first finding no record, return the counts `1, 2, ..., N`, and the
stored record then has `watchCount = N`, `events` of length `N`, and
chronologically non-decreasing `events` (given that the wall clock
supplying the appended timestamps is non-decreasing). -/
theorem C1_sequential_record_watches (st : Store) (vid : String) (calls : List RWCall)
    (habs : getVideo st vid = none) (hne : calls ≠ [])
    (hmono : List.Chain' (· ≤ ·) (calls.map RWCall.time)) :
    (runRecordWatches st vid calls).1 = countUpFrom 1 calls.length ∧
    ∃ r, getVideo (runRecordWatches st vid calls).2 vid = some r ∧
      r.watchCount = calls.length ∧ r.events.length = calls.length ∧
      List.Chain' (· ≤ ·) r.events := by
  rcases calls with _ | ⟨c, rest⟩
  · exact absurd rfl hne
  have hget := getVideo_after_recordWatch st vid c.metaTitle c.docTitle c.time
  rw [habs, Option.getD_none] at hget
  obtain ⟨h1, s, h2, h3, h4⟩ :=
    runRecordWatches_spec rest (recordWatch st vid c.metaTitle c.docTitle c.time).2
      (mkUpdated (freshRecord vid) c.metaTitle c.docTitle c.time) vid hget
  have hw : (mkUpdated (freshRecord vid) c.metaTitle c.docTitle c.time).watchCount = 1 := rfl
  have hev : (mkUpdated (freshRecord vid) c.metaTitle c.docTitle c.time).events
      = [c.time] := rfl
  refine ⟨?_, s, h2, ?_, ?_, ?_⟩
  · show (recordWatch st vid c.metaTitle c.docTitle c.time).1
        :: (runRecordWatches (recordWatch st vid c.metaTitle c.docTitle c.time).2
            vid rest).1 = _
    have hfst : (recordWatch st vid c.metaTitle c.docTitle c.time).1 = 1 := by
      rw [recordWatch_eq_of_none habs]
    rw [h1, hw, hfst]
    rfl
  · rw [h3, hw, List.length_cons]
    omega
  · simp only [h4, hev, List.length_append, List.length_map, List.length_cons,
      List.length_nil]
    omega
  · rw [h4, hev]
    simpa using hmono

/-- Witness for C1 with two concrete calls. -/
theorem C1_witness :
    (runRecordWatches [] "a" [⟨none, "T", 5⟩, ⟨some "S", "D", 7⟩]).1 = countUpFrom 1 2 ∧
    ∃ r, getVideo (runRecordWatches [] "a" [⟨none, "T", 5⟩, ⟨some "S", "D", 7⟩]).2 "a"
        = some r ∧
      r.watchCount = 2 ∧ r.events.length = 2 ∧ List.Chain' (· ≤ ·) r.events :=
  C1_sequential_record_watches [] "a" [⟨none, "T", 5⟩, ⟨some "S", "D", 7⟩]
    rfl (by decide) (by simp [List.chain'_cons])

/-- Claim C8 (amended): on `record_watch`, the stored title becomes the
supplied `meta.title` when that is non-empty; otherwise the previous
title is retained when it is present and non-empty; otherwise the title
falls back to the ambient `document.title`. -/
theorem C8_title_update (st : Store) (vid : String) (r : WatchRecord)
    (mt : Option String) (dt : String) (t : Nat) (h : getVideo st vid = some r) :
    ∃ s, getVideo (recordWatch st vid mt dt t).2 vid = some s ∧
      s.title = some (match mt with
        | some m => if m = "" then (match r.title with
            | some p => if p = "" then dt else p
            | none => dt) else m
        | none => (match r.title with
            | some p => if p = "" then dt else p
            | none => dt)) := by
  refine ⟨mkUpdated r mt dt t, ?_, ?_⟩
  · have hget := getVideo_after_recordWatch st vid mt dt t
    rwa [h, Option.getD_some] at hget
  · show some (jsOrS mt (jsOrS r.title dt)) = _
    rcases mt with _ | m <;> rcases r.title with _ | p <;> simp [jsOrS]

/-- Witness for C8 at a record with a non-empty stored title and an
absent `meta.title`: the stored title is retained. -/
theorem C8_witness :
    getVideo [⟨"a", 1, [3], some "Old", some 3⟩] "a"
        = some ⟨"a", 1, [3], some "Old", some 3⟩ ∧
    ∃ s, getVideo (recordWatch [⟨"a", 1, [3], some "Old", some 3⟩] "a" none "Doc" 9).2 "a"
        = some s ∧ s.title = some "Old" :=
  ⟨by decide,
   C8_title_update [⟨"a", 1, [3], some "Old", some 3⟩] "a"
     ⟨"a", 1, [3], some "Old", some 3⟩ none "Doc" 9 (by decide)⟩

/-- Counterexample to claim C8 as stated: a record whose stored title is
the empty string (created while `document.title` was empty) does not
retain it on the next `record_watch` with an absent `meta.title` — the
title falls through to the current `document.title` instead. -/
theorem C8_counterexample :
    Option.map WatchRecord.title
        (getVideo ((recordWatch [] "a" none "" 0).2) "a") = some (some "") ∧
    Option.map WatchRecord.title
        (getVideo ((recordWatch ((recordWatch [] "a" none "" 0).2) "a" none "NewTab" 1).2)
          "a")
      = some (some "NewTab") :=
  ⟨by decide, by decide⟩

section DetectorLemmas

theorem detectorStep_no_emit_of_marked (s : DetectorState) (e : PageEvent) (vid : String)
    (hn : isNavigate e = false) (hm : vid ∈ s.sessionMarked) :
    (detectorStep s e).2 ≠ some vid ∧ vid ∈ (detectorStep s e).1.sessionMarked := by
  obtain ⟨cid, marked⟩ := s
  simp only at hm
  cases e with
  | navigate i => simp [isNavigate] at hn
  | ended =>
    cases cid with
    | none => exact ⟨by simp [detectorStep], hm⟩
    | some cur =>
      by_cases hcm : cur ∈ marked
      · simp only [detectorStep, if_pos hcm]
        exact ⟨by simp, hm⟩
      · have hne : cur ≠ vid := fun he => hcm (he ▸ hm)
        simp only [detectorStep, if_neg hcm]
        exact ⟨by simp [hne], List.mem_cons_of_mem cur hm⟩
  | timeupdate ct dur =>
    cases cid with
    | none => exact ⟨by simp [detectorStep], hm⟩
    | some cur =>
      by_cases hc : thresholdHit ct dur ∧ cur ∉ marked
      · have hne : cur ≠ vid := fun he => hc.2 (he ▸ hm)
        simp only [detectorStep, if_pos hc]
        exact ⟨by simp [hne], List.mem_cons_of_mem cur hm⟩
      · simp only [detectorStep, if_neg hc]
        exact ⟨by simp, hm⟩

theorem detectorStep_emit_marks (s : DetectorState) (e : PageEvent) (vid : String)
    (h : (detectorStep s e).2 = some vid) : vid ∈ (detectorStep s e).1.sessionMarked := by
  obtain ⟨cid, marked⟩ := s
  cases e with
  | navigate i => simp [detectorStep] at h
  | ended =>
    cases cid with
    | none => simp [detectorStep] at h
    | some cur =>
      by_cases hcm : cur ∈ marked
      · simp [detectorStep, if_pos hcm] at h
      · simp only [detectorStep, if_neg hcm] at h ⊢
        simp only [Option.some.injEq] at h
        subst h
        exact List.mem_cons_self _ _
  | timeupdate ct dur =>
    cases cid with
    | none => simp [detectorStep] at h
    | some cur =>
      by_cases hc : thresholdHit ct dur ∧ cur ∉ marked
      · simp only [detectorStep, if_pos hc] at h ⊢
        simp only [Option.some.injEq] at h
        subst h
        exact List.mem_cons_self _ _
      · simp [detectorStep, if_neg hc] at h

theorem runDetector_no_emit_of_marked (evs : List PageEvent) :
    ∀ (s : DetectorState) (vid : String), (∀ e ∈ evs, isNavigate e = false) →
      vid ∈ s.sessionMarked → vid ∉ (runDetector s evs).2 := by
  induction evs with
  | nil => intro s vid _ _; simp [runDetector]
  | cons e rest ih =>
    intro s vid hn hm
    obtain ⟨hne, hm2⟩ :=
      detectorStep_no_emit_of_marked s e vid (hn e (List.mem_cons_self e rest)) hm
    have hrest := ih (detectorStep s e).1 vid
      (fun x hx => hn x (List.mem_cons_of_mem e hx)) hm2
    simp only [runDetector, List.mem_append]
    rintro (h1 | h2)
    · cases hst : (detectorStep s e).2 with
      | none => rw [hst] at h1; simp [emitList] at h1
      | some w =>
        rw [hst] at h1
        simp only [emitList, List.mem_singleton] at h1
        exact hne (by rw [hst, h1])
    · exact hrest h2

theorem runDetector_count_le_one (evs : List PageEvent) :
    ∀ (s : DetectorState) (vid : String), (∀ e ∈ evs, isNavigate e = false) →
      ((runDetector s evs).2.count vid) ≤ 1 := by
  induction evs with
  | nil => intro s vid _; simp [runDetector]
  | cons e rest ih =>
    intro s vid hn
    have hok : ∀ x ∈ rest, isNavigate x = false :=
      fun x hx => hn x (List.mem_cons_of_mem e hx)
    cases hst : (detectorStep s e).2 with
    | none =>
      simp only [runDetector, hst, emitList, List.nil_append]
      exact ih _ vid hok
    | some w =>
      by_cases hw : w = vid
      · subst hw
        have hmark := detectorStep_emit_marks s e w hst
        have hno := runDetector_no_emit_of_marked rest (detectorStep s e).1 w hok hmark
        simp only [runDetector, hst, emitList, List.singleton_append, List.count_cons]
        rw [List.count_eq_zero.mpr hno]
        simp
      · have hb : ¬((w == vid) = true) := by simpa using hw
        simp only [runDetector, hst, emitList, List.singleton_append, List.count_cons,
          if_neg hb, Nat.add_zero]
        exact ih _ vid hok

end DetectorLemmas

/-- Claim C3: within one session (no navigation events), once an id is in
`sessionMarked` no later `timeupdate` or `ended` emits a `record_watch`
for it, and in any case at most one `record_watch` per id is emitted. -/
theorem C3_at_most_one_per_session (s : DetectorState) (evs : List PageEvent) (vid : String)
    (hn : ∀ e ∈ evs, isNavigate e = false) :
    (vid ∈ s.sessionMarked → vid ∉ (runDetector s evs).2) ∧
    (runDetector s evs).2.count vid ≤ 1 :=
  ⟨fun hm => runDetector_no_emit_of_marked evs s vid hn hm,
   runDetector_count_le_one evs s vid hn⟩

/-- Witness for C3: a marked id sees an `ended`, a live-stream
`timeupdate` and another `ended` without emitting again. -/
theorem C3_witness :
    (∀ e ∈ [PageEvent.ended, PageEvent.timeupdate 5 JsNum.nan, PageEvent.ended],
        isNavigate e = false) ∧
    (("v" ∈ (DetectorState.mk (some "v") ["v"]).sessionMarked →
        "v" ∉ (runDetector ⟨some "v", ["v"]⟩
          [PageEvent.ended, PageEvent.timeupdate 5 JsNum.nan, PageEvent.ended]).2) ∧
      (runDetector ⟨some "v", ["v"]⟩
          [PageEvent.ended, PageEvent.timeupdate 5 JsNum.nan, PageEvent.ended]).2.count "v"
        ≤ 1) :=
  ⟨by decide,
   C3_at_most_one_per_session ⟨some "v", ["v"]⟩
     [PageEvent.ended, PageEvent.timeupdate 5 JsNum.nan, PageEvent.ended] "v" (by decide)⟩

/-- Claim C4: a `timeupdate` for the current item emits `record_watch`
exactly when the duration is a finite positive number, the played
percentage reaches the 70 percent threshold, and the item is not yet in
`sessionMarked`; a `NaN` or infinite duration never fires the threshold
rule.  The hypothesis that a finite reported duration is non-negative is
the HTMLMediaElement guarantee (`duration` is `NaN`, `Infinity`, or a
non-negative number). -/
theorem C4_threshold_rule (s : DetectorState) (vid : String) (ct : ℚ) (dur : JsNum)
    (hcur : s.currentId = some vid) (hnn : ∀ d : ℚ, dur = JsNum.num d → 0 ≤ d) :
    (detectorStep s (.timeupdate ct dur)).2 = some vid ↔
      ∃ d : ℚ, dur = JsNum.num d ∧ 0 < d ∧ 70 ≤ ct / d * 100 ∧
        vid ∉ s.sessionMarked := by
  obtain ⟨cid, marked⟩ := s
  simp only at hcur
  subst hcur
  cases dur with
  | nan => simp [detectorStep, thresholdHit]
  | inf => simp [detectorStep, thresholdHit]
  | num d =>
    by_cases hd : d = 0
    · subst hd
      simp [detectorStep, thresholdHit]
    · by_cases hm : vid ∈ marked
      · simp [detectorStep, thresholdHit, hd, hm]
      · by_cases hge : 70 ≤ ct / d * 100
        · simp only [detectorStep, thresholdHit, if_neg hd]
          rw [if_pos ⟨by simpa using hge, by simpa using hm⟩]
          simp only [Option.some.injEq, JsNum.num.injEq]
          constructor
          · intro _
            exact ⟨d, rfl, lt_of_le_of_ne (hnn d rfl) (Ne.symm hd), hge, hm⟩
          · intro _
            trivial
        · simp only [detectorStep, thresholdHit, if_neg hd]
          rw [if_neg (fun hc => hge (by simpa using hc.1))]
          simp only [JsNum.num.injEq]
          constructor
          · intro hx
            exact absurd hx (by simp)
          · rintro ⟨d2, rfl, _, hge2, _⟩
            exact absurd hge2 hge

/-- Witness for C4 at a 70-percent-reaching update on an unmarked item. -/
theorem C4_witness :
    (detectorStep ⟨some "v", []⟩ (.timeupdate 140 (.num 2))).2 = some "v" ↔
      ∃ d : ℚ, JsNum.num 2 = JsNum.num d ∧ 0 < d ∧ 70 ≤ 140 / d * 100 ∧
        "v" ∉ (DetectorState.mk (some "v") []).sessionMarked :=
  C4_threshold_rule ⟨some "v", []⟩ "v" 140 (.num 2) rfl
    (fun d h => by cases h; norm_num)

/-- Claim C6: a navigation replaces `sessionMarked` with the empty set,
so after navigating away and back, a threshold-reaching position stream
for an item recorded in the earlier session (hence in the old
`sessionMarked`) emits exactly one new `record_watch`, while the repeated
update and the `ended` signal within the new session emit nothing more. -/
theorem C6_navigation_new_session (s : DetectorState) (vid : String)
    (other : Option String) (ct d : ℚ) (hmarked : vid ∈ s.sessionMarked)
    (hd : 0 < d) (hpct : 70 ≤ ct / d * 100) :
    ((detectorStep s (.navigate other)).1.sessionMarked = []) ∧
    (runDetector s [.navigate other, .navigate (some vid),
        .timeupdate ct (.num d), .timeupdate ct (.num d), .ended]).2 = [vid] := by
  refine ⟨rfl, ?_⟩
  have hth : thresholdHit ct (.num d) = true := by
    simp only [thresholdHit, if_neg hd.ne', decide_eq_true_eq]
    exact hpct
  simp [runDetector, detectorStep, emitList, hth]

/-- Witness for C6: an item marked in the previous session is recorded
again after navigating away and back. -/
theorem C6_witness :
    ("v" ∈ (DetectorState.mk (some "v") ["v"]).sessionMarked) ∧
    ((detectorStep ⟨some "v", ["v"]⟩ (.navigate (some "w"))).1.sessionMarked = []) ∧
    (runDetector ⟨some "v", ["v"]⟩ [.navigate (some "w"), .navigate (some "v"),
        .timeupdate 140 (.num 2), .timeupdate 140 (.num 2), .ended]).2 = ["v"] :=
  ⟨by decide,
   C6_navigation_new_session ⟨some "v", ["v"]⟩ "v" (some "w") 140 2
     (by decide) (by norm_num) (by norm_num)⟩

end WatchTracker
